import Mathlib

/-!
Verification of the RAG pipeline in
`src/challenge/simple-RAG-openai-answer/rag_system.py`.

The Python source is shallowly embedded below.  Floating-point vectors are
modelled as lists of exact rationals (`List ℚ`); every algorithmic step of the
source (dot products, the stable descending sort performed by Python's
`sorted(..., reverse=True)`, the `[:top_k]` slice, string template rendering,
exception handling via `Except`) is translated directly.  The external OpenAI
client is modelled as an explicit gateway function that may fail, matching the
`try`/`except` structure of the source.
-/

namespace Prequel

/-- Model of `np.dot` on two equal-length vectors; floats are modelled as
exact rationals.  (`numpy` raises on mismatched lengths; the index only ever
holds vectors produced by one embedding model, so lengths agree in every
reachable state.) -/
def npDot (a b : List ℚ) : ℚ := (List.zipWith (· * ·) a b).sum

/-- Model of the `Document` dataclass: id, title, content, category and an
optional embedding vector (`embeddings: list[float] | None = None`). -/
structure Document where
  id : String
  title : String
  content : String
  category : String
  embeddings : Option (List ℚ) := none
deriving DecidableEq, Inhabited, Repr

/-- Model of a Python exception raised by the embeddings client
(`client.embeddings.create`), carried as its message string. -/
abbrev EmbError := String

/-- Model of a Python exception raised by the chat-completions client,
carried as its message string. -/
abbrev GenError := String

/-- Model of `KnowledgeBase`: the embedding gateway (`_embed_single_text`,
which calls the OpenAI client and may raise) together with the stored
documents produced by `_create_embeddings`. -/
structure KnowledgeBase where
  embed : String → Except EmbError (List ℚ)
  documents : List Document

/-- The similarity score the source computes for one stored document:
`np.dot(query_embeddings, doc.embeddings)`.  Stored documents always carry an
embedding (set by `_create_embeddings`); `np.dot` applied to a missing vector
would raise in Python, so the `getD []` default is never exercised on an
index built by `knowledgeBaseMk`. -/
def docScore (query_embeddings : List ℚ) (doc : Document) : ℚ :=
  npDot query_embeddings (doc.embeddings.getD [])

/-- Insert one element into a list that is already stably sorted in
descending key order: walk past strictly greater keys, stop at the first key
less than or equal to ours (so earlier input elements stay ahead on ties). -/
def insertDescBy (key : α → ℚ) (x : α) : List α → List α
  | [] => [x]
  | y :: ys => if key x < key y then y :: insertDescBy key x ys else x :: y :: ys

/-- Stable descending sort by a rational key.  Python's
`sorted(..., key=..., reverse=True)` is specified to be a stable sort that
does not reverse the relative order of equal keys; a stable sort's output is
determined by that specification, so this insertion sort is an exact model. -/
def sortDescBy (key : α → ℚ) : List α → List α
  | [] => []
  | x :: xs => insertDescBy key x (sortDescBy key xs)

/-- Model of the Python slice `l[:k]` for an `int` bound `k`: a non-negative
bound takes the first `k` elements; a negative bound drops the last `|k|`
elements (clamped at the ends, never an error). -/
def pySliceTo (l : List α) (k : Int) : List α :=
  if 0 ≤ k then l.take k.toNat else l.take ((l.length : Int) + k).toNat

/-- The number of elements Python's `l[:k]` keeps from a list of length `n`,
before the final clamp to `n`. -/
def pyTakeArg (n : Nat) (k : Int) : Nat :=
  if 0 ≤ k then k.toNat else ((n : Int) + k).toNat

/-- Model of `KnowledgeBase.retrieve_documents`: embed the query, score every
stored document with `np.dot`, stable-sort descending by score
(`sorted(similarities, key=lambda x: x[0], reverse=True)`), slice `[:top_k]`,
and project the documents back out. -/
def retrieveDocuments (kb : KnowledgeBase) (query : String) (top_k : Int) :
    Except EmbError (List Document) := do
  let query_embeddings ← kb.embed query
  let similarities := kb.documents.map fun doc => (docScore query_embeddings doc, doc)
  let top_results := pySliceTo (sortDescBy (fun x => x.1) similarities) top_k
  return top_results.map fun n => n.2

/-- Model of `KnowledgeBase._create_embeddings`: rebuild every document with
its embedding filled in from the gateway.  The Python list comprehension
evaluates `_embed_single_text` per document in order and raises out of the
whole call at the first failure, which is exactly this short-circuiting
recursion over `Except`. -/
def createEmbeddings (embed : String → Except EmbError (List ℚ)) :
    List Document → Except EmbError (List Document)
  | [] => .ok []
  | doc :: rest => do
    let e ← embed doc.content
    let tail ← createEmbeddings embed rest
    return { doc with embeddings := some e } :: tail

/-- Model of `KnowledgeBase.__init__` after the JSON corpus has been parsed
into raw documents (file reading and parsing are external collaborators): a
usable knowledge base exists only if `_create_embeddings` succeeded for every
document; otherwise the constructor raises and no object is produced. -/
def knowledgeBaseMk (embed : String → Except EmbError (List ℚ))
    (raw_documents : List Document) : Except EmbError KnowledgeBase :=
  (createEmbeddings embed raw_documents).map fun docs =>
    { embed := embed, documents := docs }

/-- Model of one chat message dict `{"role": ..., "content": ...}`. -/
structure Message where
  role : String
  content : String
deriving DecidableEq, Repr

/-- Model of the `Result` dataclass returned by `search_and_generate`. -/
structure Result where
  answer : String
  supporting_documents : List Document
deriving DecidableEq, Repr

/-- The per-document block produced inside `RAGSystem._format_context`: the
`textwrap.dedent` of the indented f-string literal.  Note that the source
interpolates `doc.title` into the `Content:` slot. -/
def recordTemplate (doc : Document) : String :=
  "\nID: " ++ doc.id ++ "\nTitle: " ++ doc.title ++ "\nContent: " ++ doc.title ++ "\n"

/-- Model of `RAGSystem._format_context`: join the per-document blocks with
newlines. -/
def formatContext (retrieved_docs : List Document) : String :=
  String.intercalate "\n" (retrieved_docs.map recordTemplate)

/-- The fixed system instruction from `RAGSystem._create_prompt_messages`. -/
def systemInstruction : String :=
  "You are a helpful technical documentation assistant. Answer questions using only the provided context. If the context doesn't contain enough information to answer the question, say so clearly. Keep responses concise but complete."

/-- Model of `RAGSystem._create_prompt_messages`. -/
def createPromptMessages (query context : String) : List Message :=
  [{ role := "system", content := systemInstruction },
   { role := "user",
     content := "Context:\n" ++ context ++ "\n\nQuestion: " ++ query ++
       "\n\nPlease provide a helpful answer based on the context above." }]

/-- Model of the conversion loop at the top of `RAGSystem._generate_response`:
messages whose role is neither `system` nor `user` are silently dropped. -/
def buildTypedMessages (message_dicts : List Message) : List Message :=
  message_dicts.filter fun m => m.role == "system" || m.role == "user"

/-- Model of Python's `str.strip()`: remove leading and trailing whitespace
characters. -/
def pyStrip (s : String) : String :=
  String.mk (((s.data.dropWhile Char.isWhitespace).reverse.dropWhile
    Char.isWhitespace).reverse)

/-- Model of the body of `RAGSystem._generate_response`: call the
chat-completions gateway inside `try`; on success return the stripped text,
on an exception return `f"Error generating response: {str(e)}"`. -/
def generateResponse (gen : List Message → Except GenError String)
    (message_dicts : List Message) : String :=
  match gen (buildTypedMessages message_dicts) with
  | .ok content => pyStrip content
  | .error e => "Error generating response: " ++ e

/-- Model of `RAGSystem`: the chat-completions gateway (the OpenAI client
call made with `chat_model`) plus the knowledge base. -/
structure RAGSystem where
  gen : List Message → Except GenError String
  knowledge_base : KnowledgeBase

/-- Model of `RAGSystem.search_and_generate`: retrieve (exceptions from the
query embedding propagate to the caller uncaught), format the context, build
the prompt, generate (exceptions converted to an error string inside
`_generate_response`), and package the `Result`. -/
def searchAndGenerate (rag : RAGSystem) (query : String) (top_k : Int) :
    Except EmbError Result := do
  let related_documents ← retrieveDocuments rag.knowledge_base query top_k
  let context := formatContext related_documents
  let augmented_messages := createPromptMessages query context
  let answer := generateResponse rag.gen augmented_messages
  return { answer := answer, supporting_documents := related_documents }

/-- Modelled from the spec: cosine similarity of two vectors,
`dot a b / (‖a‖ * ‖b‖)`.  This is the spec-side comparison measure; the
source itself only ever computes raw dot products. -/
noncomputable def cosineSim (a b : List ℚ) : ℝ :=
  ((npDot a b : ℚ) : ℝ) /
    (Real.sqrt ((npDot a a : ℚ) : ℝ) * Real.sqrt ((npDot b b : ℚ) : ℝ))

/-- Modelled from the spec: the ContextComposer renders, per record, its
identifier, title, and actual `content` field. -/
def composeSpec (records : List Document) : String :=
  String.intercalate "\n" (records.map fun doc =>
    "\nID: " ++ doc.id ++ "\nTitle: " ++ doc.title ++ "\nContent: " ++
      doc.content ++ "\n")

/-- The extensional top-`m` specification used to state the retrieval claims:
`res` consists of the documents at a list of corpus positions `idxs`, `idxs`
together with the unselected positions is a permutation of all positions,
every unselected position scores no higher than every selected one, and the
selected positions are in strictly descending score order with ties broken by
ascending corpus position (stability). -/
def TopKSelection (qe : List ℚ) (docs : List Document) (m : Nat)
    (res : List Document) : Prop :=
  ∃ idxs restIdxs : List Nat,
    res = idxs.map (fun i => docs.getD i default) ∧
    idxs.length = m ∧
    (idxs ++ restIdxs).Perm (List.range docs.length) ∧
    (∀ i ∈ idxs, ∀ j ∈ restIdxs,
      docScore qe (docs.getD j default) ≤ docScore qe (docs.getD i default)) ∧
    idxs.Pairwise (fun i j =>
      docScore qe (docs.getD j default) < docScore qe (docs.getD i default) ∨
      (docScore qe (docs.getD i default) = docScore qe (docs.getD j default) ∧
        i < j))

/-- Tag every list element with its position, starting at `i`.  Used to state
the stability of the source's sort in terms of original corpus positions. -/
def tagIdx : List α → Nat → List (α × Nat)
  | [], _ => []
  | x :: xs, i => (x, i) :: tagIdx xs (i + 1)

theorem except_bind_ok (a : α) (f : α → Except ε β) :
    (Except.ok a >>= f : Except ε β) = f a := rfl

theorem except_pure_eq_ok (a : α) : (pure a : Except ε α) = Except.ok a := rfl

theorem tagIdx_map_fst (l : List α) (i : Nat) : (tagIdx l i).map Prod.fst = l := by
  induction l generalizing i with
  | nil => rfl
  | cons x xs ih => simp [tagIdx, ih]

theorem tagIdx_map_snd (l : List α) (i : Nat) :
    (tagIdx l i).map Prod.snd = List.range' i l.length := by
  induction l generalizing i with
  | nil => rfl
  | cons x xs ih => simp [tagIdx, ih, List.range'_succ]

theorem tagIdx_length (l : List α) (i : Nat) : (tagIdx l i).length = l.length := by
  induction l generalizing i with
  | nil => rfl
  | cons x xs ih => simp [tagIdx, ih]

theorem mem_tagIdx (l : List α) (i : Nat) (p : α × Nat) (hp : p ∈ tagIdx l i) :
    ∃ j, ∃ h : j < l.length, p.2 = i + j ∧ p.1 = l.get ⟨j, h⟩ := by
  induction l generalizing i with
  | nil => simp [tagIdx] at hp
  | cons x xs ih =>
    rcases (List.mem_cons).mp hp with h | h
    · exact ⟨0, by simp, by simp [h], by simp [h]⟩
    · obtain ⟨j, hj, h2, h1⟩ := ih (i + 1) h
      exact ⟨j + 1, by simpa using hj, by omega, by simpa using h1⟩

theorem tagIdx_pairwise (l : List α) (i : Nat) :
    (tagIdx l i).Pairwise fun a b => a.2 < b.2 := by
  induction l generalizing i with
  | nil => exact List.Pairwise.nil
  | cons x xs ih =>
    refine List.pairwise_cons.mpr ⟨fun p hp => ?_, ih (i + 1)⟩
    obtain ⟨j, hj, h2, _⟩ := mem_tagIdx xs (i + 1) p hp
    omega

theorem insertDescBy_perm (key : α → ℚ) (x : α) (l : List α) :
    (insertDescBy key x l).Perm (x :: l) := by
  induction l with
  | nil => simp [insertDescBy]
  | cons y ys ih =>
    unfold insertDescBy
    split
    · exact (ih.cons y).trans (List.Perm.swap x y ys)
    · exact List.Perm.refl _

theorem sortDescBy_perm (key : α → ℚ) (l : List α) : (sortDescBy key l).Perm l := by
  induction l with
  | nil => exact List.Perm.refl _
  | cons x xs ih => exact (insertDescBy_perm key x _).trans (ih.cons x)

theorem insertDescBy_map (g : β → α) (key : α → ℚ) (x : β) (l : List β) :
    insertDescBy key (g x) (l.map g) = (insertDescBy (fun b => key (g b)) x l).map g := by
  induction l with
  | nil => rfl
  | cons y ys ih => by_cases h : key (g x) < key (g y) <;> simp [insertDescBy, h, ih]

theorem sortDescBy_map (g : β → α) (key : α → ℚ) (l : List β) :
    sortDescBy key (l.map g) = (sortDescBy (fun b => key (g b)) l).map g := by
  induction l with
  | nil => rfl
  | cons x xs ih => simp only [List.map_cons, sortDescBy, ih, insertDescBy_map]

theorem insertDescBy_pairwise (key : α → ℚ) (idx : α → Nat) (x : α) (l : List α)
    (hl : l.Pairwise fun a b => key b < key a ∨ (key a = key b ∧ idx a < idx b))
    (hx : ∀ y ∈ l, idx x < idx y) :
    (insertDescBy key x l).Pairwise
      fun a b => key b < key a ∨ (key a = key b ∧ idx a < idx b) := by
  induction l with
  | nil => simp [insertDescBy]
  | cons y ys ih =>
    obtain ⟨hy, hys⟩ := List.pairwise_cons.mp hl
    unfold insertDescBy
    split
    · refine List.pairwise_cons.mpr ⟨fun z hz => ?_, ?_⟩
      · rcases List.mem_cons.mp ((insertDescBy_perm key x ys).mem_iff.mp hz) with hz | hz
        · subst hz; left; assumption
        · exact hy z hz
      · exact ih hys fun z hz => hx z (List.mem_cons_of_mem y hz)
    · rename_i hxy
      refine List.pairwise_cons.mpr ⟨fun z hz => ?_, hl⟩
      rcases (List.mem_cons).mp hz with hz | hz
      · subst hz
        rcases lt_or_eq_of_le (le_of_not_lt hxy) with h | h
        · exact Or.inl h
        · exact Or.inr ⟨h.symm, hx z (List.mem_cons_self z ys)⟩
      · rcases hy z hz with h | ⟨heq, _⟩
        · exact Or.inl (lt_of_lt_of_le h (le_of_not_lt hxy))
        · rcases lt_or_eq_of_le (le_of_not_lt hxy) with h | h
          · exact Or.inl (heq ▸ h)
          · exact Or.inr ⟨h.symm.trans heq, hx z (List.mem_cons_of_mem y hz)⟩

theorem sortDescBy_pairwise (key : α → ℚ) (idx : α → Nat) (l : List α)
    (hl : l.Pairwise fun a b => idx a < idx b) :
    (sortDescBy key l).Pairwise
      fun a b => key b < key a ∨ (key a = key b ∧ idx a < idx b) := by
  induction l with
  | nil => exact List.Pairwise.nil
  | cons x xs ih =>
    obtain ⟨hx, hxs⟩ := List.pairwise_cons.mp hl
    exact insertDescBy_pairwise key idx x _ (ih hxs)
      fun y hy => hx y ((sortDescBy_perm key xs).mem_iff.mp hy)

theorem pySliceTo_eq_take (l : List α) (k : Int) :
    pySliceTo l k = l.take (pyTakeArg l.length k) := by
  unfold pySliceTo pyTakeArg
  split <;> rfl

theorem pySliceTo_map (g : β → α) (l : List β) (k : Int) :
    pySliceTo (l.map g) k = (pySliceTo l k).map g := by
  unfold pySliceTo
  simp only [List.length_map]
  split <;> simp [List.map_take]

/-- Master characterization of `retrieve_documents`: whenever the query
embedding succeeds, the call returns the stable top selection determined by
the Python slice bound. -/
theorem retrieve_documents_char (kb : KnowledgeBase) (query : String) (qe : List ℚ)
    (k : Int) (hemb : kb.embed query = Except.ok qe) :
    ∃ res, retrieveDocuments kb query k = Except.ok res ∧
      TopKSelection qe kb.documents
        (min (pyTakeArg kb.documents.length k) kb.documents.length) res := by
  classical
  have hret : retrieveDocuments kb query k =
      Except.ok ((pySliceTo (sortDescBy (fun x => x.1)
        (kb.documents.map fun doc => (docScore qe doc, doc))) k).map fun n => n.2) := by
    unfold retrieveDocuments
    rw [hemb, except_bind_ok, except_pure_eq_ok]
  refine ⟨_, hret, ?_⟩
  set docs := kb.documents with hdocs
  set sims := docs.map fun doc => (docScore qe doc, doc) with hsims
  set li := tagIdx sims 0 with hli
  set sorted := sortDescBy (fun p : (ℚ × Document) × Nat => p.1.1) li with hsortd
  set t := pyTakeArg docs.length k with ht
  have hlen_sims : sims.length = docs.length := by rw [hsims, List.length_map]
  have hperm : sorted.Perm li := by rw [hsortd]; exact sortDescBy_perm _ _
  have hlen_sorted : sorted.length = docs.length := by
    rw [hperm.length_eq, hli, tagIdx_length, hlen_sims]
  have herase : sortDescBy (fun x : ℚ × Document => x.1) sims = sorted.map Prod.fst := by
    conv_lhs => rw [← tagIdx_map_fst sims 0]
    rw [sortDescBy_map]
  have helem : ∀ p ∈ sorted, p.2 < docs.length ∧
      p.1 = (docScore qe (docs.getD p.2 default), docs.getD p.2 default) := by
    intro p hp
    have hpli : p ∈ li := hperm.mem_iff.mp hp
    obtain ⟨j, hj, h2, h1⟩ := mem_tagIdx sims 0 p (by rwa [hli] at hpli)
    have hj' : j < docs.length := by rwa [hlen_sims] at hj
    have h2' : p.2 = j := by omega
    rw [h2']
    refine ⟨hj', ?_⟩
    rw [h1, List.getD_eq_getElem docs default hj']
    simp [hsims]
  have hpair : sorted.Pairwise
      fun a b => b.1.1 < a.1.1 ∨ (a.1.1 = b.1.1 ∧ a.2 < b.2) := by
    rw [hsortd]
    exact sortDescBy_pairwise _ Prod.snd li (by rw [hli]; exact tagIdx_pairwise sims 0)
  -- rewrite the returned value through the tagged pipeline
  have hval : (pySliceTo (sortDescBy (fun x : ℚ × Document => x.1) sims) k).map
      (fun n : ℚ × Document => n.2) = (sorted.take t).map fun p => p.1.2 := by
    rw [herase, pySliceTo_map, pySliceTo_eq_take, hlen_sorted, ← ht, List.map_map]
    rfl
  rw [hval]
  refine ⟨(sorted.take t).map Prod.snd, (sorted.drop t).map Prod.snd, ?_, ?_, ?_, ?_, ?_⟩
  · -- the selected documents are the documents at the selected positions
    rw [List.map_map]
    refine List.map_congr_left fun p hp => ?_
    have hmem : p ∈ sorted := (List.take_sublist t sorted).subset hp
    have := (helem p hmem).2
    simp only [Function.comp]
    rw [this]
  · -- length of the selection
    rw [List.length_map, List.length_take, hlen_sorted]
  · -- together with the rest, the selected positions cover the corpus
    rw [← List.map_append, List.take_append_drop]
    have h1 : (sorted.map Prod.snd).Perm (li.map Prod.snd) := hperm.map Prod.snd
    have h2 : li.map Prod.snd = List.range docs.length := by
      rw [hli, tagIdx_map_snd, hlen_sims, ← List.range_eq_range']
    rw [h2] at h1
    exact h1
  · -- every unselected position scores no higher than every selected one
    intro i hi j hj
    obtain ⟨a, ha, rfl⟩ := List.mem_map.mp hi
    obtain ⟨b, hb, rfl⟩ := List.mem_map.mp hj
    have hcross : b.1.1 < a.1.1 ∨ (a.1.1 = b.1.1 ∧ a.2 < b.2) := by
      have hp := hpair
      rw [← List.take_append_drop t sorted] at hp
      exact (List.pairwise_append.mp hp).2.2 a ha b hb
    have hea := (helem a ((List.take_sublist t sorted).subset ha)).2
    have heb := (helem b ((List.drop_sublist t sorted).subset hb)).2
    have hka : a.1.1 = docScore qe (docs.getD a.2 default) := by rw [hea]
    have hkb : b.1.1 = docScore qe (docs.getD b.2 default) := by rw [heb]
    rw [hka, hkb] at hcross
    rcases hcross with h | ⟨h, _⟩
    · exact le_of_lt h
    · exact le_of_eq h.symm
  · -- descending scores, ties broken by corpus position
    rw [List.pairwise_map]
    have hp : (sorted.take t).Pairwise
        (fun a b => b.1.1 < a.1.1 ∨ (a.1.1 = b.1.1 ∧ a.2 < b.2)) :=
      hpair.sublist (List.take_sublist t sorted)
    refine hp.imp_of_mem ?_
    intro a b ha hb hab
    have hea := (helem a ((List.take_sublist t sorted).subset ha)).2
    have heb := (helem b ((List.take_sublist t sorted).subset hb)).2
    have hka : a.1.1 = docScore qe (docs.getD a.2 default) := by rw [hea]
    have hkb : b.1.1 = docScore qe (docs.getD b.2 default) := by rw [heb]
    rw [hka, hkb] at hab
    exact hab

theorem map_getD_range (l : List α) (d : α) :
    (List.range l.length).map (fun i => l.getD i d) = l := by
  apply List.ext_getElem
  · simp
  · intro i h1 h2
    simp [List.getD_eq_getElem l d h2, List.getElem?_eq_getElem h2]

/-- C1: for every corpus with fixed embeddings, every query whose embedding
succeeds, and every `k ≥ 0`, `retrieve_documents(query, k)` returns exactly
the `k` highest-scoring records (all records when the corpus holds fewer than
`k`), sorted by score descending, with ties on equal scores broken by
original corpus order (stable sort). -/
theorem retrieve_topk_correct (kb : KnowledgeBase) (query : String) (qe : List ℚ)
    (k : Int) (hk : 0 ≤ k) (hemb : kb.embed query = Except.ok qe) :
    ∃ res, retrieveDocuments kb query k = Except.ok res ∧
      TopKSelection qe kb.documents (min k.toNat kb.documents.length) res := by
  have h := retrieve_documents_char kb query qe k hemb
  rwa [show pyTakeArg kb.documents.length k = k.toNat from by simp [pyTakeArg, hk]] at h

/-- C5: for every corpus and query whose embedding succeeds,
`retrieve_documents(query, 0)` returns the empty sequence (not an error), and
for every `k` greater than the corpus size, `retrieve_documents(query, k)`
returns the full corpus ranked by descending score. -/
theorem retrieve_k_edge_cases (kb : KnowledgeBase) (query : String) (qe : List ℚ)
    (k : Int) (hemb : kb.embed query = Except.ok qe)
    (hk : (kb.documents.length : Int) < k) :
    retrieveDocuments kb query 0 = Except.ok [] ∧
    ∃ res, retrieveDocuments kb query k = Except.ok res ∧
      res.Perm kb.documents ∧
      TopKSelection qe kb.documents kb.documents.length res := by
  constructor
  · unfold retrieveDocuments
    rw [hemb, except_bind_ok, except_pure_eq_ok]
    simp [pySliceTo]
  · have h := retrieve_documents_char kb query qe k hemb
    have hmin : min (pyTakeArg kb.documents.length k) kb.documents.length
        = kb.documents.length := by
      simp only [pyTakeArg]
      rw [if_pos (by omega)]
      omega
    rw [hmin] at h
    obtain ⟨res, hres, hsel⟩ := h
    refine ⟨res, hres, ?_, hsel⟩
    obtain ⟨idxs, restIdxs, hmap, hlen, hcover, _, _⟩ := hsel
    have hrest : restIdxs = [] := by
      have := hcover.length_eq
      simp only [List.length_append, List.length_range, hlen] at this
      exact List.eq_nil_of_length_eq_zero (by omega)
    rw [hrest] at hcover
    simp only [List.append_nil] at hcover
    rw [hmap]
    have := hcover.map fun i => kb.documents.getD i default
    rwa [map_getD_range kb.documents default] at this

/-- C10: for every corpus of size `N`, a negative `top_k` with `|top_k| < N`
does not fail: Python slice semantics make `retrieve_documents` return the
`N - |top_k|` highest-scoring documents (the ranked list with the `|top_k|`
lowest-scoring entries dropped), in descending score order with stable
ties. -/
theorem retrieve_negative_topk (kb : KnowledgeBase) (query : String) (qe : List ℚ)
    (k : Int) (hemb : kb.embed query = Except.ok qe) (hneg : k < 0)
    (habs : (-k).toNat < kb.documents.length) :
    ∃ res, retrieveDocuments kb query k = Except.ok res ∧
      TopKSelection qe kb.documents (kb.documents.length - (-k).toNat) res := by
  have h := retrieve_documents_char kb query qe k hemb
  have hmin : min (pyTakeArg kb.documents.length k) kb.documents.length
      = kb.documents.length - (-k).toNat := by
    simp only [pyTakeArg]
    rw [if_neg (by omega)]
    omega
  rwa [hmin] at h

/-- First record of the spec's concrete test scenario, with a stub embedding. -/
def doc1 : Document :=
  { id := "1", title := "ML Basics", content := "intro to machine learning",
    category := "ml", embeddings := some [1, 0] }

/-- Second record of the spec's concrete test scenario, with a stub embedding. -/
def doc2 : Document :=
  { id := "2", title := "Deploy", content := "best practices for deploying models",
    category := "ops", embeddings := some [0, 1] }

/-- Stub embedding gateway: the deployment question embeds next to `doc2`,
everything else next to `doc1`. -/
def embedStub : String → Except EmbError (List ℚ) := fun q =>
  if q = "How do I deploy a model?" then .ok [0, 1] else .ok [1, 0]

/-- Concrete two-document knowledge base used as a witness corpus. -/
def kbStub : KnowledgeBase := { embed := embedStub, documents := [doc1, doc2] }

theorem retrieve_topk_correct_witness :
    (0 : Int) ≤ 1 ∧ kbStub.embed "How do I deploy a model?" = Except.ok [0, 1] ∧
    ∃ res, retrieveDocuments kbStub "How do I deploy a model?" 1 = Except.ok res ∧
      TopKSelection [0, 1] kbStub.documents
        (min (Int.toNat 1) kbStub.documents.length) res :=
  ⟨by decide, rfl,
    retrieve_topk_correct kbStub "How do I deploy a model?" [0, 1] 1 (by decide) rfl⟩

theorem retrieve_k_edge_cases_witness :
    kbStub.embed "How do I deploy a model?" = Except.ok [0, 1] ∧
    (kbStub.documents.length : Int) < 3 ∧
    (retrieveDocuments kbStub "How do I deploy a model?" 0 = Except.ok [] ∧
      ∃ res, retrieveDocuments kbStub "How do I deploy a model?" 3 = Except.ok res ∧
        res.Perm kbStub.documents ∧
        TopKSelection [0, 1] kbStub.documents kbStub.documents.length res) :=
  ⟨rfl, by decide,
    retrieve_k_edge_cases kbStub "How do I deploy a model?" [0, 1] 3 rfl (by decide)⟩

theorem retrieve_negative_topk_witness :
    kbStub.embed "How do I deploy a model?" = Except.ok [0, 1] ∧
    (-1 : Int) < 0 ∧ (-(-1 : Int)).toNat < kbStub.documents.length ∧
    ∃ res, retrieveDocuments kbStub "How do I deploy a model?" (-1) = Except.ok res ∧
      TopKSelection [0, 1] kbStub.documents
        (kbStub.documents.length - (-(-1 : Int)).toNat) res :=
  ⟨rfl, by decide, by decide,
    retrieve_negative_topk kbStub "How do I deploy a model?" [0, 1] (-1) rfl
      (by decide) (by decide)⟩

theorem except_bind_err (e : ε) (f : α → Except ε β) :
    (Except.error e >>= f : Except ε β) = Except.error e := rfl

/-- C2: if retrieval succeeds but the generation call raises,
`search_and_generate` does not propagate the error: it returns a `Result`
whose text describes the failure and whose supporting documents are the
records from the successful retrieval. -/
theorem generation_failure_isolated (rag : RAGSystem) (query : String) (top_k : Int)
    (docs : List Document) (e : GenError)
    (hret : retrieveDocuments rag.knowledge_base query top_k = Except.ok docs)
    (hgen : rag.gen (buildTypedMessages
      (createPromptMessages query (formatContext docs))) = Except.error e) :
    searchAndGenerate rag query top_k =
      Except.ok { answer := "Error generating response: " ++ e,
                  supporting_documents := docs } := by
  unfold searchAndGenerate generateResponse
  rw [hret, except_bind_ok]
  dsimp only
  rw [hgen]
  rfl

/-- C8: for every successful answer call, `Result.supporting_documents` is
exactly the list of records that was passed to the context composer, in
retrieval order (same records, same order, no additions or omissions), and
the generated answer was produced from the prompt built over that same
context. -/
theorem supporting_documents_exact (rag : RAGSystem) (query : String) (top_k : Int)
    (docs : List Document)
    (hret : retrieveDocuments rag.knowledge_base query top_k = Except.ok docs) :
    searchAndGenerate rag query top_k = Except.ok
      { answer := generateResponse rag.gen
          (createPromptMessages query (formatContext docs)),
        supporting_documents := docs } := by
  unfold searchAndGenerate
  rw [hret, except_bind_ok, except_pure_eq_ok]

theorem searchAndGenerate_of_gen_ok (rag : RAGSystem) (query : String)
    (top_k : Int) (docs : List Document) (s : String)
    (hret : retrieveDocuments rag.knowledge_base query top_k = Except.ok docs)
    (hgen : rag.gen (buildTypedMessages
      (createPromptMessages query (formatContext docs))) = Except.ok s) :
    searchAndGenerate rag query top_k =
      Except.ok { answer := pyStrip s, supporting_documents := docs } := by
  unfold searchAndGenerate generateResponse
  rw [hret, except_bind_ok]
  dsimp only
  rw [hgen]
  rfl

/-- C6 (amended): when the generation call succeeds, `search_and_generate`
returns its text stripped of surrounding whitespace as the answer, even when
the stripped text is empty; an empty or whitespace-only generation result is
not treated as a failure. -/
theorem generation_success_returned_stripped (rag : RAGSystem) (query : String)
    (top_k : Int) (docs : List Document) (s : String)
    (hret : retrieveDocuments rag.knowledge_base query top_k = Except.ok docs)
    (hgen : rag.gen (buildTypedMessages
      (createPromptMessages query (formatContext docs))) = Except.ok s) :
    searchAndGenerate rag query top_k =
      Except.ok { answer := pyStrip s, supporting_documents := docs } :=
  searchAndGenerate_of_gen_ok rag query top_k docs s hret hgen

/-- C4 (amended): `search_and_generate` performs no input validation: for
every query (including the empty string) and every integer `k` (including
negative values), when the gateways succeed the call returns a normal
`Result` instead of failing. -/
theorem no_input_validation (rag : RAGSystem) (query : String) (k : Int)
    (qe : List ℚ) (s : String)
    (hemb : rag.knowledge_base.embed query = Except.ok qe)
    (hgen : ∀ msgs, rag.gen msgs = Except.ok s) :
    ∃ res, searchAndGenerate rag query k = Except.ok res ∧
      res.answer = pyStrip s := by
  obtain ⟨docs, hret, _⟩ := retrieve_documents_char rag.knowledge_base query qe k hemb
  refine ⟨{ answer := generateResponse rag.gen
              (createPromptMessages query (formatContext docs)),
            supporting_documents := docs }, ?_, ?_⟩
  · unfold searchAndGenerate
    rw [hret, except_bind_ok, except_pure_eq_ok]
  · simp [generateResponse, hgen]

/-- C7: if embedding fails for any one of the corpus documents during index
build, the whole build aborts with the failure and no knowledge base is ever
produced (no partial index). -/
theorem build_all_or_nothing (embed : String → Except EmbError (List ℚ))
    (raw : List Document) (d : Document) (hd : d ∈ raw)
    (hfail : ∃ e, embed d.content = Except.error e) :
    ∃ e, knowledgeBaseMk embed raw = Except.error e := by
  obtain ⟨e, he⟩ := hfail
  suffices h : ∃ e, createEmbeddings embed raw = Except.error e by
    obtain ⟨e', he'⟩ := h
    refine ⟨e', ?_⟩
    unfold knowledgeBaseMk
    rw [he']
    rfl
  induction raw with
  | nil => cases hd
  | cons x xs ih =>
    rcases List.mem_cons.mp hd with rfl | hd2
    · exact ⟨e, by unfold createEmbeddings; rw [he, except_bind_err]⟩
    · cases hx : embed x.content with
      | error e2 =>
        exact ⟨e2, by unfold createEmbeddings; rw [hx, except_bind_err]⟩
      | ok v =>
        obtain ⟨e3, he3⟩ := ih hd2
        refine ⟨e3, ?_⟩
        unfold createEmbeddings
        rw [hx, except_bind_ok]
        rw [he3, except_bind_err]

/-- C3: the composed context is required to render each record's actual
`content` field, but the source template interpolates `doc.title` into the
`Content:` slot; on a record whose title and content differ, the rendered
block duplicates the title and never mentions the content. -/
theorem format_context_renders_title_not_content :
    formatContext [doc1] = "\nID: 1\nTitle: ML Basics\nContent: ML Basics\n" ∧
    composeSpec [doc1] = "\nID: 1\nTitle: ML Basics\nContent: intro to machine learning\n" ∧
    formatContext [doc1] ≠ composeSpec [doc1] := by
  refine ⟨rfl, rfl, ?_⟩
  decide

/-- A single-document corpus used by the orchestrator witnesses. -/
def docSolo : Document :=
  { id := "s", title := "Solo", content := "sole document", category := "c",
    embeddings := some [1] }

/-- One-document knowledge base whose embedding gateway always succeeds. -/
def kbSolo : KnowledgeBase := { embed := fun _ => .ok [1], documents := [docSolo] }

/-- Orchestrator whose generation gateway raises. -/
def ragBoom : RAGSystem := { gen := fun _ => .error "boom", knowledge_base := kbStub }

/-- Orchestrator whose generation gateway returns fixed non-empty text. -/
def ragFine : RAGSystem := { gen := fun _ => .ok "fine", knowledge_base := kbStub }

/-- Orchestrator whose generation gateway succeeds with whitespace-only text. -/
def ragBlank : RAGSystem := { gen := fun _ => .ok "   ", knowledge_base := kbSolo }

/-- Orchestrator over the one-document corpus with fixed generation text. -/
def ragSolo : RAGSystem := { gen := fun _ => .ok "fine", knowledge_base := kbSolo }

theorem kbStub_retrieve_deploy :
    retrieveDocuments kbStub "How do I deploy a model?" 1 = Except.ok [doc2] := by
  norm_num [retrieveDocuments, kbStub, embedStub, doc1, doc2, except_bind_ok,
    except_pure_eq_ok, docScore, npDot, sortDescBy, insertDescBy, pySliceTo]

theorem kbSolo_retrieve :
    retrieveDocuments kbSolo "q" 1 = Except.ok [docSolo] := by
  norm_num [retrieveDocuments, kbSolo, docSolo, except_bind_ok,
    except_pure_eq_ok, docScore, npDot, sortDescBy, insertDescBy, pySliceTo]

theorem generation_failure_isolated_witness :
    retrieveDocuments ragBoom.knowledge_base "How do I deploy a model?" 1 =
      Except.ok [doc2] ∧
    ragBoom.gen (buildTypedMessages (createPromptMessages "How do I deploy a model?"
      (formatContext [doc2]))) = Except.error "boom" ∧
    searchAndGenerate ragBoom "How do I deploy a model?" 1 =
      Except.ok { answer := "Error generating response: " ++ "boom",
                  supporting_documents := [doc2] } :=
  ⟨kbStub_retrieve_deploy, rfl,
    generation_failure_isolated ragBoom "How do I deploy a model?" 1 [doc2] "boom"
      kbStub_retrieve_deploy rfl⟩

theorem supporting_documents_exact_witness :
    retrieveDocuments ragFine.knowledge_base "How do I deploy a model?" 1 =
      Except.ok [doc2] ∧
    searchAndGenerate ragFine "How do I deploy a model?" 1 = Except.ok
      { answer := generateResponse ragFine.gen
          (createPromptMessages "How do I deploy a model?" (formatContext [doc2])),
        supporting_documents := [doc2] } :=
  ⟨kbStub_retrieve_deploy,
    supporting_documents_exact ragFine "How do I deploy a model?" 1 [doc2]
      kbStub_retrieve_deploy⟩

/-- C6 counterexample: a generation call that succeeds with whitespace-only
text is not treated as a failure; `search_and_generate` returns the stripped
empty string as a normal answer. -/
theorem empty_generation_is_normal_answer :
    searchAndGenerate ragBlank "q" 1 =
      Except.ok { answer := "", supporting_documents := [docSolo] } := by
  have hstrip : pyStrip "   " = "" := by decide
  have h := searchAndGenerate_of_gen_ok ragBlank "q" 1 [docSolo] "   "
    kbSolo_retrieve rfl
  rwa [hstrip] at h

theorem generation_success_returned_stripped_witness :
    retrieveDocuments ragBlank.knowledge_base "q" 1 = Except.ok [docSolo] ∧
    ragBlank.gen (buildTypedMessages (createPromptMessages "q"
      (formatContext [docSolo]))) = Except.ok "   " ∧
    searchAndGenerate ragBlank "q" 1 =
      Except.ok { answer := pyStrip "   ", supporting_documents := [docSolo] } :=
  ⟨kbSolo_retrieve, rfl,
    generation_success_returned_stripped ragBlank "q" 1 [docSolo] "   "
      kbSolo_retrieve rfl⟩

/-- C4 counterexample: called with an empty query and a negative `k`, the
source performs no validation: it retrieves (the negative slice keeps the
first `N - |k|` ranked documents, here none) and returns a normal `Result`
instead of failing with `InvalidRequest`. -/
theorem no_validation_on_empty_query_negative_k :
    searchAndGenerate ragSolo "" (-1) =
      Except.ok { answer := "fine", supporting_documents := [] } := by
  have hret : retrieveDocuments kbSolo "" (-1) = Except.ok [] := by
    norm_num [retrieveDocuments, kbSolo, docSolo, except_bind_ok,
      except_pure_eq_ok, docScore, npDot, sortDescBy, insertDescBy, pySliceTo]
  have h := searchAndGenerate_of_gen_ok ragSolo "" (-1) [] "fine" hret rfl
  have hstrip : pyStrip "fine" = "fine" := by decide
  rwa [hstrip] at h

theorem no_input_validation_witness :
    ragSolo.knowledge_base.embed "" = Except.ok [1] ∧
    (∀ msgs, ragSolo.gen msgs = Except.ok "fine") ∧
    ∃ res, searchAndGenerate ragSolo "" (-5) = Except.ok res ∧
      res.answer = pyStrip "fine" :=
  ⟨rfl, fun _ => rfl,
    no_input_validation ragSolo "" (-5) [1] "fine" rfl fun _ => rfl⟩

/-- A raw corpus document whose embedding will succeed. -/
def rawGood : Document :=
  { id := "g", title := "Good", content := "good text", category := "c" }

/-- A raw corpus document whose embedding will fail. -/
def rawBad : Document :=
  { id := "b", title := "Bad", content := "bad text", category := "c" }

/-- Embedding gateway that fails on `rawBad`'s content only. -/
def embedFlaky : String → Except EmbError (List ℚ) := fun s =>
  if s = "bad text" then .error "offline" else .ok [1]

theorem build_all_or_nothing_witness :
    rawBad ∈ [rawGood, rawBad] ∧
    (∃ e, embedFlaky rawBad.content = Except.error e) ∧
    ∃ e, knowledgeBaseMk embedFlaky [rawGood, rawBad] = Except.error e :=
  ⟨by simp, ⟨"offline", rfl⟩,
    build_all_or_nothing embedFlaky [rawGood, rawBad] rawBad (by simp)
      ⟨"offline", rfl⟩⟩

/-- Document whose raw dot product with the query is highest. -/
def docHighDot : Document :=
  { id := "A", title := "High dot", content := "a", category := "c",
    embeddings := some [3, 4] }

/-- Document whose cosine similarity with the query is highest. -/
def docHighCos : Document :=
  { id := "B", title := "High cosine", content := "b", category := "c",
    embeddings := some [1, 0] }

/-- Two-document corpus with non-unit embeddings. -/
def kbSkew : KnowledgeBase :=
  { embed := fun _ => .ok [1, 0], documents := [docHighDot, docHighCos] }

/-- C9 counterexample: the source compares raw dot products without
normalizing, so on non-unit embeddings the retrieval ranking differs from
the cosine-similarity ranking: `docHighDot` is ranked first although
`docHighCos` has the strictly larger cosine similarity to the query. -/
theorem dot_ranking_differs_from_cosine :
    retrieveDocuments kbSkew "q" 2 = Except.ok [docHighDot, docHighCos] ∧
    cosineSim [1, 0] (docHighDot.embeddings.getD []) <
      cosineSim [1, 0] (docHighCos.embeddings.getD []) := by
  constructor
  · norm_num [retrieveDocuments, kbSkew, docHighDot, docHighCos, except_bind_ok,
      except_pure_eq_ok, docScore, npDot, sortDescBy, insertDescBy, pySliceTo]
  · have h25 : Real.sqrt 25 = 5 := by
      rw [show (25 : ℝ) = 5 ^ 2 by norm_num, Real.sqrt_sq (by norm_num : (0:ℝ) ≤ 5)]
    have hdA : npDot [1, 0] [3, 4] = 3 := by norm_num [npDot]
    have hAA : npDot [(1:ℚ), 0] [1, 0] = 1 := by norm_num [npDot]
    have hBB : npDot [(3:ℚ), 4] [3, 4] = 25 := by norm_num [npDot]
    have hdB : npDot [1, 0] [1, 0] = 1 := by norm_num [npDot]
    simp only [docHighDot, docHighCos, Option.getD_some, cosineSim, hdA, hAA, hBB, hdB]
    push_cast
    rw [h25]
    norm_num [Real.sqrt_one]

/-- C9 (amended): the source never normalizes, but when the stored
embeddings are unit vectors (as the source's docstring assumes the provider
guarantees), the raw dot-product scores it computes order documents exactly
as cosine similarity does. -/
theorem dot_ranking_matches_cosine_on_unit_vectors (qe : List ℚ) (d1 d2 : Document)
    (hq : 0 < npDot qe qe)
    (h1 : npDot (d1.embeddings.getD []) (d1.embeddings.getD []) = 1)
    (h2 : npDot (d2.embeddings.getD []) (d2.embeddings.getD []) = 1) :
    (cosineSim qe (d1.embeddings.getD []) ≤ cosineSim qe (d2.embeddings.getD []) ↔
      docScore qe d1 ≤ docScore qe d2) := by
  unfold cosineSim docScore
  rw [h1, h2, Rat.cast_one, Real.sqrt_one, mul_one]
  have hs : 0 < Real.sqrt ((npDot qe qe : ℚ) : ℝ) :=
    Real.sqrt_pos.mpr (by exact_mod_cast hq)
  rw [div_le_div_iff_of_pos_right hs]
  exact Rat.cast_le

/-- Unit-vector document along the second axis. -/
def docUnitY : Document :=
  { id := "y", title := "Y", content := "y", category := "c",
    embeddings := some [0, 1] }

/-- Unit-vector document along the first axis. -/
def docUnitX : Document :=
  { id := "x", title := "X", content := "x", category := "c",
    embeddings := some [1, 0] }

theorem dot_ranking_matches_cosine_on_unit_vectors_witness :
    0 < npDot [1, 0] [1, 0] ∧
    npDot (docUnitY.embeddings.getD []) (docUnitY.embeddings.getD []) = 1 ∧
    npDot (docUnitX.embeddings.getD []) (docUnitX.embeddings.getD []) = 1 ∧
    (cosineSim [1, 0] (docUnitY.embeddings.getD []) ≤
        cosineSim [1, 0] (docUnitX.embeddings.getD []) ↔
      docScore [1, 0] docUnitY ≤ docScore [1, 0] docUnitX) := by
  have hq : 0 < npDot [(1:ℚ), 0] [1, 0] := by norm_num [npDot]
  have h1 : npDot (docUnitY.embeddings.getD []) (docUnitY.embeddings.getD []) = 1 := by
    norm_num [npDot, docUnitY]
  have h2 : npDot (docUnitX.embeddings.getD []) (docUnitX.embeddings.getD []) = 1 := by
    norm_num [npDot, docUnitX]
  exact ⟨hq, h1, h2,
    dot_ranking_matches_cosine_on_unit_vectors [1, 0] docUnitY docUnitX hq h1 h2⟩

end Prequel
